import Mathlib

/-!
Verification of the file-handle layer of an HDFS FUSE mount (HopsFileHandle.go).

The Go source is shallowly embedded: the staging (local scratch) file is a list
of bytes with a read position, the remote (DFS) file is an optional list of
bytes, and every fallible external call (remote create/write/close, staging
read/seek/truncate) takes an explicit fault parameter describing whether that
call fails and with which error.  Machine integers of the source (int64
counters, byte counts) are modelled as Nat: none of the verified properties
involves overflow, and all counters only grow by list lengths.
-/

namespace HopsMount

/-- A byte of file content. -/
abbrev Byte := Nat

/-- Go error values relevant to the handle layer: io.EOF, an error from the
local staging store, or an error from the remote filesystem.  A remote error
carries whether it is of a retriable kind (transport / remote unavailable)
in the sense of the spec's taxonomy. -/
inductive GoError where
  | eof
  | localErr (code : Nat)
  | remoteErr (retriable : Bool) (code : Nat)
deriving DecidableEq

/-- The staging (local scratch) file backing an open inode: its bytes, the
current sequential read position, and whether it was upgraded for writing. -/
structure StagingFile where
  data : List Byte
  pos : Nat
  readWrite : Bool
deriving DecidableEq

/-- FileINode: the fields of the in-memory inode the handle operations touch:
absolute path and mode (abstracted to numbers), the ids of the open handles,
the shared staging file (nil once closed), and whether cached metadata for the
inode's path is currently present. -/
structure FileINode where
  path : Nat
  mode : Nat
  handles : List Nat
  staging : Option StagingFile
  metaCached : Bool
deriving DecidableEq

/-- FileHandle: per-open state (HopsFileHandle.go, struct FileHandle). -/
structure FileHandle where
  fhID : Nat
  fileFlags : Nat
  tatalBytesRead : Nat
  totalBytesWritten : Nat
deriving DecidableEq

/-- WriteAt on a plain byte list: POSIX pwrite semantics, zero-filling any gap
between the end of the file and the write offset. -/
def listWriteAt (data : List Byte) (off : Nat) (bs : List Byte) : List Byte :=
  let padded := data ++ List.replicate (off - data.length) 0
  padded.take off ++ bs ++ padded.drop (off + bs.length)

/-- ReadAt on a plain byte list: reads up to size bytes at off, reporting
io.EOF exactly when fewer than size bytes were available (os.File.ReadAt). -/
def listReadAt (data : List Byte) (off size : Nat) : List Byte × Option GoError :=
  let bs := (data.drop off).take size
  (bs, if bs.length < size then some GoError.eof else none)

/-- Truncate of the staging file: shrink drops bytes, grow zero-fills. -/
def stTruncate (s : StagingFile) (size : Nat) : StagingFile :=
  { s with data := s.data.take size ++ List.replicate (size - s.data.length) 0 }

/-- ReadAt through the inode's staging reference, with an injectable staging
I/O fault.  A nil staging reference (handle released last) cannot complete the
call — the Go code would fault on the nil dereference — modelled as a local
error result. -/
def stReadAtF (st : Option StagingFile) (off size : Nat) (fault : Option GoError) :
    List Byte × Option GoError :=
  match st with
  | none => ([], some (GoError.localErr 0))
  | some s =>
    match fault with
    | some e => ([], some e)
    | none => listReadAt s.data off size

/-- Result of FileHandle.Read: the bytes placed in resp.Data, the updated
handle counters, and the error returned to the VFS. -/
structure ReadOut where
  data : List Byte
  fh : FileHandle
  err : Option GoError
deriving DecidableEq

/-- FileHandle.Read (HopsFileHandle.go): ReadAt into the response buffer,
resp.Data = buf[0:nr], the read counter advances by nr; io.EOF is reported to
FUSE as a successful read, any other error is returned unchanged. -/
def fhRead (fh : FileHandle) (ino : FileINode) (off size : Nat)
    (fault : Option GoError) : ReadOut :=
  let r := stReadAtF ino.staging off size fault
  let fh2 := { fh with tatalBytesRead := fh.tatalBytesRead + r.1.length }
  match r.2 with
  | some GoError.eof => { data := r.1, fh := fh2, err := none }
  | some e => { data := r.1, fh := fh2, err := some e }
  | none => { data := r.1, fh := fh2, err := none }

/-- Modelled from the spec: FileINode.upgradeHandleForWriting is not among the
given source files.  Spec section 4.E and the design notes: an idempotent
ReadOnly to ReadWrite transition on the staging file, preserving its
contents. -/
def upgradeHandleForWriting (ino : FileINode) : FileINode :=
  { ino with staging := ino.staging.map (fun s => { s with readWrite := true }) }

/-- Result of FileHandle.Write: resp.Size, updated handle and inode, error. -/
structure WriteOut where
  size : Nat
  fh : FileHandle
  ino : FileINode
  err : Option GoError
deriving DecidableEq

/-- FileHandle.Write (HopsFileHandle.go): upgrade the staging handle for
writing, WriteAt on the staging file, accumulate totalBytesWritten, surface a
staging write error unchanged.  Never contacts the remote. -/
def fhWrite (fh : FileHandle) (ino : FileINode) (off : Nat) (bs : List Byte)
    (fault : Option GoError) : WriteOut :=
  let ino2 := upgradeHandleForWriting ino
  match ino2.staging with
  | none => { size := 0, fh := fh, ino := ino2, err := some (GoError.localErr 0) }
  | some s =>
    match fault with
    | some e => { size := 0, fh := fh, ino := ino2, err := some e }
    | none =>
      { size := bs.length
        fh := { fh with totalBytesWritten := fh.totalBytesWritten + bs.length }
        ino := { ino2 with staging := some { s with data := listWriteAt s.data off bs } }
        err := none }

/-- Result of FileHandle.Truncate: updated inode, returned error, and whether
a truncate failure was (only) logged. -/
structure TruncOut where
  ino : FileINode
  err : Option GoError
  loggedError : Bool
deriving DecidableEq

/-- FileHandle.Truncate (HopsFileHandle.go): truncates the staging file; a
failure of the underlying truncate is logged and then ignored — the function
returns nil unconditionally.  A nil staging reference would make the Go code
fault on the dereference, modelled as an error result. -/
def fhTruncate (fh : FileHandle) (ino : FileINode) (size : Nat)
    (fault : Option GoError) : TruncOut :=
  match ino.staging with
  | none => { ino := ino, err := some (GoError.localErr 0), loggedError := true }
  | some s =>
    match fault with
    | some _ => { ino := ino, err := none, loggedError := true }
    | none =>
      { ino := { ino with staging := some (stTruncate s size) }
        err := none, loggedError := false }

/-- FileHandle.dataChanged: true iff totalBytesWritten > 0. -/
def dataChanged (fh : FileHandle) : Bool := decide (0 < fh.totalBytesWritten)

/-- Faults injected into one flush attempt: whether CreateFile fails, whether
SeekToStart fails, whether the k-th staging Read call fails, whether the k-th
remote Write fails, and whether the final remote Close fails. -/
structure AttemptFaults where
  createErr : Option GoError
  seekErr : Option GoError
  readFault : Nat → Option GoError
  writeFault : Nat → Option GoError
  closeErr : Option GoError

/-- A fault-free attempt environment. -/
def noFaults : AttemptFaults :=
  { createErr := none, seekErr := none, readFault := fun _ => none
    writeFault := fun _ => none, closeErr := none }

/-- How the streaming loop of FlushAttempt ended: the staging Read returned an
error (io.EOF or otherwise) and the loop broke out, or a remote Write failed
and the attempt returns that error after best-effort closing the writer. -/
inductive LoopExit where
  | brokeRead (e : GoError)
  | writeFailed (e : GoError)
deriving DecidableEq

/-- State coming out of the streaming loop. -/
structure LoopOut where
  outcome : LoopExit
  staging : StagingFile
  chunks : List (List Byte)
  written : Nat
deriving DecidableEq

/-- The streaming loop of FlushAttempt (HopsFileHandle.go, lines 136-154):
b := make 65536; for { nr, err := handle.Read(b); if err != nil break;
b = b[:nr]; nw, err := w.Write(b); if err { w.Close(); return err };
written += nw }.  The buffer permanently shrinks to nr after a short read,
exactly as b = b[:nr] does.  The first argument of the recursion is fuel
bounding the iteration count; every non-final iteration reads at least one
byte, so a fuel of data length + 2 (used by FlushAttempt below) is never
exhausted. -/
def flushLoop (f : AttemptFaults) :
    Nat → StagingFile → Nat → Nat → List (List Byte) → Nat → LoopOut
  | 0, s, _, _, chunks, written =>
    { outcome := LoopExit.brokeRead (GoError.localErr 99), staging := s
      chunks := chunks, written := written }
  | fuel + 1, s, bufLen, k, chunks, written =>
    match f.readFault k with
    | some e =>
      { outcome := LoopExit.brokeRead e, staging := s, chunks := chunks, written := written }
    | none =>
      if s.data.length ≤ s.pos then
        { outcome := LoopExit.brokeRead GoError.eof, staging := s
          chunks := chunks, written := written }
      else
        let bs := (s.data.drop s.pos).take (min bufLen (s.data.length - s.pos))
        let s2 := { s with pos := s.pos + bs.length }
        match f.writeFault chunks.length with
        | some e =>
          { outcome := LoopExit.writeFailed e, staging := s2
            chunks := chunks, written := written }
        | none => flushLoop f fuel s2 bs.length (k + 1) (chunks ++ [bs]) (written + bs.length)

/-- A call of hdfsAccessor.CreateFile as observed by the remote side. -/
structure CreateCall where
  path : Nat
  mode : Nat
  overwrite : Bool
deriving DecidableEq

/-- Everything one FlushAttempt produced: the returned error, the inode (its
staging read position advances), the remote file content afterwards, the
CreateFile calls issued, whether SeekToStart ran, the chunk payloads delivered
to the remote writer and the accumulated written counter. -/
structure AttemptResult where
  err : Option GoError
  ino : FileINode
  dfs : Option (List Byte)
  createCalls : List CreateCall
  soughtToStart : Bool
  chunks : List (List Byte)
  written : Nat
deriving DecidableEq

/-- FileHandle.FlushAttempt (HopsFileHandle.go, lines 119-163): CreateFile
(path, mode, overwrite=true) — on success the remote file is replaced by the
empty file and each remote Write appends; SeekToStart on the staging file;
stream with flushLoop; on a remote write error close the writer best-effort
and return the error; after the loop breaks on a read error — io.EOF or not —
the read error is dropped and the result is that of w.Close().  A nil staging
reference faults at SeekToStart (modelled as a local error). -/
def FlushAttempt (fh : FileHandle) (ino : FileINode) (f : AttemptFaults)
    (dfs : Option (List Byte)) : AttemptResult :=
  let cc : List CreateCall := [{ path := ino.path, mode := ino.mode, overwrite := true }]
  match f.createErr with
  | some e =>
    { err := some e, ino := ino, dfs := dfs, createCalls := cc
      soughtToStart := false, chunks := [], written := 0 }
  | none =>
    match ino.staging with
    | none =>
      { err := some (GoError.localErr 0), ino := ino, dfs := some []
        createCalls := cc, soughtToStart := false, chunks := [], written := 0 }
    | some s =>
      match f.seekErr with
      | some e =>
        { err := some e, ino := ino, dfs := some [], createCalls := cc
          soughtToStart := false, chunks := [], written := 0 }
      | none =>
        let s0 : StagingFile := { s with pos := 0 }
        let out := flushLoop f (s0.data.length + 2) s0 65536 0 [] 0
        match out.outcome with
        | LoopExit.writeFailed e =>
          { err := some e, ino := { ino with staging := some out.staging }
            dfs := some out.chunks.flatten, createCalls := cc, soughtToStart := true
            chunks := out.chunks, written := out.written }
        | LoopExit.brokeRead _ =>
          match f.closeErr with
          | some e =>
            { err := some e, ino := { ino with staging := some out.staging }
              dfs := some out.chunks.flatten, createCalls := cc, soughtToStart := true
              chunks := out.chunks, written := out.written }
          | none =>
            { err := none, ino := { ino with staging := some out.staging }
              dfs := some out.chunks.flatten, createCalls := cc, soughtToStart := true
              chunks := out.chunks, written := out.written }

/-- Modelled from the spec: IsSuccessOrNonRetriableError is not among the
given source files.  Spec sections 4.B and 7: nil is success; staging-store
(LocalIO) errors are non-retriable; remote errors are retriable exactly when
of transport / remote-unavailable kind; an io.EOF surfacing from the remote
connection during the copy-to-remote stream is reclassified as Transport and
hence retriable. -/
def IsSuccessOrNonRetriableError : Option GoError → Bool
  | none => true
  | some GoError.eof => false
  | some (GoError.localErr _) => true
  | some (GoError.remoteErr r _) => !r

/-- Result of copyToDFS: returned error, inode, remote content, the trace of
flush attempts made, and how many times the DFS connection was closed to
force a reconnect. -/
structure CopyResult where
  err : Option GoError
  ino : FileINode
  dfs : Option (List Byte)
  attempts : List AttemptResult
  connCloses : Nat
deriving DecidableEq

/-- The retry loop of copyToDFS (HopsFileHandle.go, lines 106-115): perform a
FlushAttempt; return its error unless the error is io.EOF, is not classified
success-or-non-retriable, and op.ShouldRetry still grants a retry; before
retrying, close the DFS connection.  The first argument is the number of
retries the policy still allows (spec section 4.H: shouldRetry is false once
the attempt cap is reached); faults k describes the environment of the k-th
attempt. -/
def copyLoop (fh : FileHandle) (faults : Nat → AttemptFaults) :
    Nat → Nat → FileINode → Option (List Byte) → List AttemptResult → Nat → CopyResult
  | 0, k, ino, dfs, acc, closes =>
    let r := FlushAttempt fh ino (faults k) dfs
    { err := r.err, ino := r.ino, dfs := r.dfs, attempts := acc ++ [r], connCloses := closes }
  | n + 1, k, ino, dfs, acc, closes =>
    let r := FlushAttempt fh ino (faults k) dfs
    if r.err = some GoError.eof ∧ IsSuccessOrNonRetriableError r.err = false then
      copyLoop fh faults n (k + 1) r.ino r.dfs (acc ++ [r]) (closes + 1)
    else
      { err := r.err, ino := r.ino, dfs := r.dfs, attempts := acc ++ [r], connCloses := closes }

/-- FileHandle.copyToDFS (HopsFileHandle.go, lines 99-117): nothing to do when
totalBytesWritten == 0; otherwise run the retry loop, and (deferred)
invalidate the cached metadata of the inode's path on the way out. -/
def copyToDFS (fh : FileHandle) (ino : FileINode) (faults : Nat → AttemptFaults)
    (retries : Nat) (dfs : Option (List Byte)) : CopyResult :=
  if fh.totalBytesWritten = 0 then
    { err := none, ino := ino, dfs := dfs, attempts := [], connCloses := 0 }
  else
    let r := copyLoop fh faults retries 0 ino dfs [] 0
    { r with ino := { r.ino with metaCached := false } }

/-- The operation tag Flush passes to copyToDFS; it is used only in logging. -/
def opFlushTag : Nat := 0

/-- The operation tag Fsync passes to copyToDFS; it is used only in logging. -/
def opFsyncTag : Nat := 1

/-- Result of FileHandle.Flush / FileHandle.Fsync at the VFS boundary,
including the operation tags that reached the log. -/
structure VfsOut where
  err : Option GoError
  ino : FileINode
  dfs : Option (List Byte)
  attempts : List AttemptResult
  connCloses : Nat
  loggedOps : List Nat
deriving DecidableEq

/-- The result of the no-op branch of Flush/Fsync. -/
def noopOut (ino : FileINode) (dfs : Option (List Byte)) : VfsOut :=
  { err := none, ino := ino, dfs := dfs, attempts := [], connCloses := 0, loggedOps := [] }

/-- Wraps a copyToDFS result with the operation tag the caller logged. -/
def taggedOut (r : CopyResult) (tag : Nat) : VfsOut :=
  { err := r.err, ino := r.ino, dfs := r.dfs, attempts := r.attempts
    connCloses := r.connCloses, loggedOps := [tag] }

/-- FileHandle.Flush (HopsFileHandle.go, lines 166-175): if dataChanged, log
and return copyToDFS with the Flush tag; otherwise return nil. -/
def Flush (fh : FileHandle) (ino : FileINode) (faults : Nat → AttemptFaults)
    (retries : Nat) (dfs : Option (List Byte)) : VfsOut :=
  if dataChanged fh then taggedOut (copyToDFS fh ino faults retries dfs) opFlushTag
  else noopOut ino dfs

/-- FileHandle.Fsync (HopsFileHandle.go, lines 178-187): if dataChanged, log
and return copyToDFS with the Fsync tag; otherwise return nil. -/
def Fsync (fh : FileHandle) (ino : FileINode) (faults : Nat → AttemptFaults)
    (retries : Nat) (dfs : Option (List Byte)) : VfsOut :=
  if dataChanged fh then taggedOut (copyToDFS fh ino faults retries dfs) opFsyncTag
  else noopOut ino dfs

/-- Modelled from the spec: FileINode.RemoveHandle is not among the given
source files.  Spec section 3: the inode's handles set; removal takes this
handle out of it. -/
def RemoveHandle (ino : FileINode) (hid : Nat) : FileINode :=
  { ino with handles := ino.handles.erase hid }

/-- Modelled from the spec: FileINode.countActiveHandles is not among the
given source files.  Spec section 3: the size of the inode's handles set is
the source of truth for closing the staging file. -/
def countActiveHandles (ino : FileINode) : Nat := ino.handles.length

/-- Result of FileHandle.Release. -/
structure ReleaseOut where
  ino : FileINode
  err : Option GoError
  closeErrorLogged : Bool
deriving DecidableEq

/-- FileHandle.Release (HopsFileHandle.go, lines 190-211): invalidate the
cached metadata of the inode's path, remove this handle, and when no active
handles remain close the staging file (a close failure is only logged) and
clear the staging reference; returns nil in every case. -/
def Release (fh : FileHandle) (ino : FileINode) (closeFault : Option GoError) : ReleaseOut :=
  let ino1 := { ino with metaCached := false }
  let ino2 := RemoveHandle ino1 fh.fhID
  if countActiveHandles ino2 = 0 then
    { ino := { ino2 with staging := none }, err := none, closeErrorLogged := closeFault.isSome }
  else
    { ino := ino2, err := none, closeErrorLogged := false }

/-- The error of the last attempt of a trace (none for an empty trace). -/
def lastErrOf : List AttemptResult → Option GoError
  | [] => none
  | [a] => a.err
  | _ :: b :: t => lastErrOf (b :: t)

/-- True iff every attempt of the trace except the last failed with io.EOF:
the shape copyLoop's retry condition forces on every non-final attempt. -/
def allButLastEofB : List AttemptResult → Bool
  | [] => true
  | [_] => true
  | a :: b :: t => decide (a.err = some GoError.eof) && allButLastEofB (b :: t)

/-- The canonical 64 KiB chunking of a byte list: what a faultless streaming
loop delivers to the remote writer. -/
def chunkList (l : List Byte) : List (List Byte) :=
  if h : l = [] then [] else l.take 65536 :: chunkList (l.drop 65536)
termination_by l.length
decreasing_by
  have hpos : 0 < l.length := List.length_pos.mpr h
  simp only [List.length_drop]
  omega

/-- Concrete inputs used by witnesses and counterexamples. -/
def exFhC1 : FileHandle :=
  { fhID := 1, fileFlags := 0, tatalBytesRead := 0, totalBytesWritten := 0 }

def exInoC1 : FileINode :=
  { path := 7, mode := 420, handles := [1]
    staging := some { data := [], pos := 0, readWrite := false }, metaCached := true }

/-- The accepted write of bytes 1,2,3 at offset 0 on a fresh handle. -/
def exWriteC1 : WriteOut := fhWrite exFhC1 exInoC1 0 [1, 2, 3] none

/-- A flush environment in which every staging read fails with a local error. -/
def exFaultsC1 : Nat → AttemptFaults :=
  fun _ => { noFaults with readFault := fun _ => some (GoError.localErr 5) }

def exFhC2 : FileHandle :=
  { fhID := 3, fileFlags := 0, tatalBytesRead := 0, totalBytesWritten := 1 }

def exInoC2 : FileINode :=
  { path := 4, mode := 420, handles := [3]
    staging := some { data := [1], pos := 0, readWrite := true }, metaCached := true }

/-- A flush environment whose remote writes fail with a retriable transport
error. -/
def exFaultsC2 : Nat → AttemptFaults :=
  fun _ => { noFaults with writeFault := fun _ => some (GoError.remoteErr true 5) }

def exFhC2w : FileHandle :=
  { fhID := 6, fileFlags := 0, tatalBytesRead := 0, totalBytesWritten := 1 }

def exInoC2w : FileINode :=
  { path := 8, mode := 420, handles := [6]
    staging := some { data := [3], pos := 0, readWrite := true }, metaCached := true }

/-- A flush environment whose first attempt fails with io.EOF at CreateFile
(the broken-connection signal) and whose later attempts are fault-free. -/
def exFaultsC2w : Nat → AttemptFaults :=
  fun k => if k = 0 then { noFaults with createErr := some GoError.eof } else noFaults

def exFhC3 : FileHandle :=
  { fhID := 9, fileFlags := 0, tatalBytesRead := 0, totalBytesWritten := 0 }

def exInoC3 : FileINode :=
  { path := 10, mode := 420, handles := [9]
    staging := some { data := [5], pos := 0, readWrite := false }, metaCached := true }

def exFhC4 : FileHandle :=
  { fhID := 2, fileFlags := 0, tatalBytesRead := 0, totalBytesWritten := 2 }

def exInoC4 : FileINode :=
  { path := 3, mode := 493, handles := [2]
    staging := some { data := [9, 8], pos := 0, readWrite := true }, metaCached := true }

/-- An attempt in which every staging read fails with a local error while the
remote create/close succeed. -/
def exFaultC4 : AttemptFaults :=
  { noFaults with readFault := fun _ => some (GoError.localErr 7) }

def exFhC5 : FileHandle :=
  { fhID := 4, fileFlags := 0, tatalBytesRead := 0, totalBytesWritten := 3 }

def exInoC5 : FileINode :=
  { path := 11, mode := 420, handles := [4]
    staging := some { data := [9, 9, 9], pos := 0, readWrite := true }, metaCached := true }

def exStC5 : StagingFile := { data := [9, 9, 9], pos := 0, readWrite := true }

def exInoC5b : FileINode :=
  { path := 12, mode := 420, handles := [4]
    staging := some { data := [6, 6], pos := 0, readWrite := true }, metaCached := true }

/-- An attempt whose staging reads fail with a local error. -/
def exFaultC5 : AttemptFaults :=
  { noFaults with readFault := fun _ => some (GoError.localErr 13) }

/-- An attempt whose stream is clean but whose final remote close fails. -/
def exFaultC5w : AttemptFaults :=
  { noFaults with closeErr := some (GoError.remoteErr false 3) }

/-- An attempt whose remote writes fail with a transport error. -/
def exFaultC5x : AttemptFaults :=
  { noFaults with writeFault := fun _ => some (GoError.remoteErr true 21) }

def exFhC6 : FileHandle :=
  { fhID := 5, fileFlags := 0, tatalBytesRead := 0, totalBytesWritten := 0 }

def exInoC6 : FileINode :=
  { path := 13, mode := 420, handles := [5]
    staging := some { data := [1, 2], pos := 0, readWrite := false }, metaCached := true }

def exFhC8 : FileHandle :=
  { fhID := 1, fileFlags := 0, tatalBytesRead := 0, totalBytesWritten := 0 }

def exInoC8 : FileINode :=
  { path := 2, mode := 420, handles := [1, 2]
    staging := some { data := [], pos := 0, readWrite := false }, metaCached := true }

def exStC8 : StagingFile := { data := [], pos := 0, readWrite := false }

def exFhC9 : FileHandle :=
  { fhID := 1, fileFlags := 0, tatalBytesRead := 0, totalBytesWritten := 0 }

def exInoC9 : FileINode :=
  { path := 5, mode := 420, handles := [1, 2]
    staging := some { data := [7, 8, 9], pos := 0, readWrite := true }, metaCached := true }

def exFhC9w : FileHandle :=
  { fhID := 4, fileFlags := 0, tatalBytesRead := 0, totalBytesWritten := 1 }

def exInoC9w : FileINode :=
  { path := 6, mode := 420, handles := [4]
    staging := some { data := [1], pos := 0, readWrite := true }, metaCached := true }

def exFhC10 : FileHandle :=
  { fhID := 8, fileFlags := 0, tatalBytesRead := 0, totalBytesWritten := 0 }

def exInoC10 : FileINode :=
  { path := 14, mode := 420, handles := [8]
    staging := some { data := [1, 2], pos := 0, readWrite := true }, metaCached := true }

def exStC10 : StagingFile := { data := [1, 2], pos := 0, readWrite := true }

/-- C3: For every Read on a file handle, end-of-file is returned to the VFS as
a successful result (nil error) and never propagated as an error; only
non-EOF read errors are returned as errors: the error fhRead returns is the
underlying ReadAt error with io.EOF mapped to nil, and is never io.EOF. -/
theorem read_eof_is_success (fh : FileHandle) (ino : FileINode) (off size : Nat)
    (fault : Option GoError) :
    ((fhRead fh ino off size fault).err =
      match (stReadAtF ino.staging off size fault).2 with
      | some GoError.eof => none
      | e => e) ∧
    (fhRead fh ino off size fault).err ≠ some GoError.eof := by
  unfold fhRead
  rcases h : (stReadAtF ino.staging off size fault).2 with _ | e
  · simp [h]
  · cases e <;> simp [h]

/-- C10: FileHandle.Truncate returns nil for every size, even when the
underlying staging-file truncate fails; the failure is only logged and the
state is left unchanged, so the caller can never observe a truncate error. -/
theorem truncate_returns_nil (fh : FileHandle) (ino : FileINode) (size : Nat)
    (fault : Option GoError) (s : StagingFile) (hst : ino.staging = some s) :
    (fhTruncate fh ino size fault).err = none ∧
    (fault.isSome → (fhTruncate fh ino size fault).loggedError = true ∧
      (fhTruncate fh ino size fault).ino = ino) := by
  unfold fhTruncate
  rcases fault with _ | e <;> simp [hst]

/-- C10 witness: with staging [1,2] and an injected truncate fault, Truncate
still returns nil and only logs the failure. -/
theorem truncate_returns_nil_witness :
    (fhTruncate exFhC10 exInoC10 5 (some (GoError.localErr 3))).err = none ∧
    (fhTruncate exFhC10 exInoC10 5 (some (GoError.localErr 3))).loggedError = true := by
  have h := truncate_returns_nil exFhC10 exInoC10 5 (some (GoError.localErr 3)) exStC10 rfl
  exact ⟨h.1, (h.2 (by decide)).1⟩

/-- C1 (code bug, evaluated at the failing input): the Write of bytes 1,2,3 at
offset 0 is accepted into the staging file, yet a Flush during which every
staging read fails with a local I/O error returns success (nil) while the
remote file is left empty — the remote does not contain the accepted write's
bytes at its offset, contradicting the flush guarantee. -/
theorem flush_success_without_uploading_writes :
    exWriteC1.err = none ∧
    exWriteC1.fh.totalBytesWritten = 3 ∧
    exWriteC1.ino.staging = some { data := [1, 2, 3], pos := 0, readWrite := true } ∧
    (Flush exWriteC1.fh exWriteC1.ino exFaultsC1 9 (some [])).err = none ∧
    (Flush exWriteC1.fh exWriteC1.ino exFaultsC1 9 (some [])).dfs = some [] ∧
    decide ((listReadAt [] 0 3).1 = [1, 2, 3]) = false := by decide

/-- C4 (code bug, evaluated at the failing input): with staging content [9,8],
an attempt in which the staging read fails with a local I/O error (while the
remote create and close succeed) makes FlushAttempt — and hence copyToDFS and
Flush — return success with zero bytes delivered: the staging-store error is
silently converted into a successful flush. -/
theorem flush_attempt_swallows_read_error :
    (FlushAttempt exFhC4 exInoC4 exFaultC4 none).err = none ∧
    (FlushAttempt exFhC4 exInoC4 exFaultC4 none).written = 0 ∧
    (FlushAttempt exFhC4 exInoC4 exFaultC4 none).dfs = some [] ∧
    (copyToDFS exFhC4 exInoC4 (fun _ => exFaultC4) 9 none).err = none ∧
    exInoC4.staging = some { data := [9, 8], pos := 0, readWrite := true } ∧
    decide ((FlushAttempt exFhC4 exInoC4 exFaultC4 none).written = 2) = false := by decide

/-- C2 counterexample: a flush attempt failing with a retriable transport
error (not io.EOF) is not retried even though nine retries remain: copyToDFS
makes exactly one attempt, closes no connection, and returns the error — so
not every retriable failure with retries remaining is retried. -/
theorem transport_error_not_retried :
    IsSuccessOrNonRetriableError (some (GoError.remoteErr true 5)) = false ∧
    (copyToDFS exFhC2 exInoC2 exFaultsC2 9 none).err = some (GoError.remoteErr true 5) ∧
    (copyToDFS exFhC2 exInoC2 exFaultsC2 9 none).attempts.length = 1 ∧
    (copyToDFS exFhC2 exInoC2 exFaultsC2 9 none).connCloses = 0 := by decide

/-- C5 counterexample: an attempt whose staging reads fail with a local error
still completes as a success, with an accumulated byte count of 0 against a
staging size of 2 — the byte count delivered to the remote writer does not
equal the staging file's size on every flush attempt.  An attempt interrupted
by a remote write error (no staging read error) likewise ends with 0 of 2
bytes counted, which is why the amended claim excludes both interruptions. -/
theorem flush_attempt_partial_count :
    (FlushAttempt exFhC5 exInoC5b exFaultC5 none).err = none ∧
    (FlushAttempt exFhC5 exInoC5b exFaultC5 none).written = 0 ∧
    exInoC5b.staging = some { data := [6, 6], pos := 0, readWrite := true } ∧
    decide ((FlushAttempt exFhC5 exInoC5b exFaultC5 none).written = 2) = false ∧
    (FlushAttempt exFhC5 exInoC5b exFaultC5x none).err = some (GoError.remoteErr true 21) ∧
    (FlushAttempt exFhC5 exInoC5b exFaultC5x none).written = 0 := by decide

/-- C6: for every handle, Flush and Fsync are no-ops returning success without
contacting the remote filesystem when totalBytesWritten = 0 (no attempts, no
connection closes, state unchanged), and otherwise both invoke copyToDFS;
copyToDFS itself returns immediately when totalBytesWritten = 0. -/
theorem flush_fsync_noop (fh : FileHandle) (ino : FileINode)
    (faults : Nat → AttemptFaults) (retries : Nat) (dfs : Option (List Byte)) :
    (Flush fh ino faults retries dfs =
      if fh.totalBytesWritten = 0 then noopOut ino dfs
      else taggedOut (copyToDFS fh ino faults retries dfs) opFlushTag) ∧
    (Fsync fh ino faults retries dfs =
      if fh.totalBytesWritten = 0 then noopOut ino dfs
      else taggedOut (copyToDFS fh ino faults retries dfs) opFsyncTag) ∧
    (fh.totalBytesWritten = 0 → copyToDFS fh ino faults retries dfs =
      { err := none, ino := ino, dfs := dfs, attempts := [], connCloses := 0 }) := by
  refine ⟨?_, ?_, ?_⟩
  · unfold Flush dataChanged
    by_cases h : fh.totalBytesWritten = 0 <;> simp [h, Nat.pos_of_ne_zero]
  · unfold Fsync dataChanged
    by_cases h : fh.totalBytesWritten = 0 <;> simp [h, Nat.pos_of_ne_zero]
  · intro h
    unfold copyToDFS
    simp [h]

/-- C6 witness: a handle with totalBytesWritten = 0 gets a successful no-op
Flush with the state untouched and no flush attempts made. -/
theorem flush_fsync_noop_witness :
    Flush exFhC6 exInoC6 (fun _ => noFaults) 9 none = noopOut exInoC6 none ∧
    (copyToDFS exFhC6 exInoC6 (fun _ => noFaults) 9 none).attempts = [] := by
  have h := flush_fsync_noop exFhC6 exInoC6 (fun _ => noFaults) 9 none
  refine ⟨?_, ?_⟩
  · rw [h.1]; decide
  · rw [h.2.2 rfl]

/-- C7: Flush and Fsync are behaviourally identical for every handle state:
their returned error, inode, remote content, attempt trace and connection
closes coincide; the only difference is the operation tag that reaches the
log. -/
theorem flush_fsync_equivalent (fh : FileHandle) (ino : FileINode)
    (faults : Nat → AttemptFaults) (retries : Nat) (dfs : Option (List Byte)) :
    (Flush fh ino faults retries dfs).err = (Fsync fh ino faults retries dfs).err ∧
    (Flush fh ino faults retries dfs).ino = (Fsync fh ino faults retries dfs).ino ∧
    (Flush fh ino faults retries dfs).dfs = (Fsync fh ino faults retries dfs).dfs ∧
    (Flush fh ino faults retries dfs).attempts = (Fsync fh ino faults retries dfs).attempts ∧
    (Flush fh ino faults retries dfs).connCloses = (Fsync fh ino faults retries dfs).connCloses ∧
    (Flush fh ino faults retries dfs).loggedOps =
      (if dataChanged fh then [opFlushTag] else []) ∧
    (Fsync fh ino faults retries dfs).loggedOps =
      (if dataChanged fh then [opFsyncTag] else []) := by
  unfold Flush Fsync
  by_cases h : dataChanged fh <;> simp [h, taggedOut, noopOut]

/-- C8: Release returns success, invalidates the cached metadata of the
inode's path, removes the handle from the inode (decrementing the active
count when the handle was present), and the staging reference is cleared if
and only if the count of active handles reaches 0. -/
theorem release_spec (fh : FileHandle) (ino : FileINode) (closeFault : Option GoError)
    (s : StagingFile) (hst : ino.staging = some s) :
    (Release fh ino closeFault).err = none ∧
    (Release fh ino closeFault).ino.metaCached = false ∧
    (Release fh ino closeFault).ino.handles = ino.handles.erase fh.fhID ∧
    (fh.fhID ∈ ino.handles →
      countActiveHandles (Release fh ino closeFault).ino = countActiveHandles ino - 1) ∧
    ((Release fh ino closeFault).ino.staging = none ↔
      countActiveHandles (Release fh ino closeFault).ino = 0) := by
  have hrel : Release fh ino closeFault =
      if (ino.handles.erase fh.fhID).length = 0 then
        ReleaseOut.mk
          (FileINode.mk ino.path ino.mode (ino.handles.erase fh.fhID) none false)
          none closeFault.isSome
      else
        ReleaseOut.mk
          (FileINode.mk ino.path ino.mode (ino.handles.erase fh.fhID) ino.staging false)
          none false := rfl
  by_cases h : (ino.handles.erase fh.fhID).length = 0
  · rw [hrel, if_pos h]
    refine ⟨rfl, rfl, rfl, fun hmem => List.length_erase_of_mem hmem, ?_⟩
    simp [countActiveHandles, h]
  · rw [hrel, if_neg h]
    refine ⟨rfl, rfl, rfl, fun hmem => List.length_erase_of_mem hmem, ?_⟩
    simp [countActiveHandles, h, hst]

/-- C8 witness: releasing handle 1 of an inode with handles [1,2] succeeds,
invalidates the metadata cache, leaves one active handle, and keeps the
staging file open. -/
theorem release_spec_witness :
    (1 ∈ exInoC8.handles) ∧
    (Release exFhC8 exInoC8 none).err = none ∧
    (Release exFhC8 exInoC8 none).ino.metaCached = false ∧
    countActiveHandles (Release exFhC8 exInoC8 none).ino = 1 ∧
    (Release exFhC8 exInoC8 none).ino.staging = some exStC8 := by
  have h := release_spec exFhC8 exInoC8 none exStC8 rfl
  refine ⟨by decide, h.1, h.2.1, ?_, by decide⟩
  rw [h.2.2.2.1 (by decide)]; decide

/-- C9 counterexample: an inode with handles [1,2]; Release of handle 1
returns, one handle stays active, and a subsequent Read on the released
handle 1 succeeds (nil error, full data) — an operation on H after Release(H)
that succeeds. -/
theorem read_succeeds_after_release :
    (Release exFhC9 exInoC9 none).err = none ∧
    countActiveHandles (Release exFhC9 exInoC9 none).ino = 1 ∧
    (fhRead exFhC9 (Release exFhC9 exInoC9 none).ino 0 3 none).err = none ∧
    (fhRead exFhC9 (Release exFhC9 exInoC9 none).ino 0 3 none).data = [7, 8, 9] := by decide

/-- The empty list has no chunks. -/
theorem chunkList_nil : chunkList [] = [] := by
  rw [chunkList]
  rfl

/-- Unfolding of chunkList on a non-empty list. -/
theorem chunkList_cons (l : List Byte) (h : l ≠ []) :
    chunkList l = l.take 65536 :: chunkList (l.drop 65536) := by
  rw [chunkList]
  simp [h]

/-- Concatenating the chunks gives back the list. -/
theorem chunkList_flatten (l : List Byte) : (chunkList l).flatten = l := by
  have H : ∀ (n : Nat) (l : List Byte), l.length ≤ n → (chunkList l).flatten = l := by
    intro n
    induction n with
    | zero =>
      intro l hl
      have h0 : l = [] := List.eq_nil_of_length_eq_zero (Nat.le_zero.mp hl)
      subst h0
      rw [chunkList_nil]
      rfl
    | succ n ih =>
      intro l hl
      by_cases h : l = []
      · subst h
        rw [chunkList_nil]
        rfl
      · rw [chunkList_cons l h, List.flatten_cons,
          ih (l.drop 65536) (by simp only [List.length_drop]; omega)]
        exact List.take_append_drop 65536 l
  exact H l.length l le_rfl

/-- Every chunk holds at most 64 KiB. -/
theorem chunkList_chunk_le (l : List Byte) : ∀ c ∈ chunkList l, c.length ≤ 65536 := by
  have H : ∀ (n : Nat) (l : List Byte), l.length ≤ n →
      ∀ c ∈ chunkList l, c.length ≤ 65536 := by
    intro n
    induction n with
    | zero =>
      intro l hl c hc
      have h0 : l = [] := List.eq_nil_of_length_eq_zero (Nat.le_zero.mp hl)
      subst h0
      rw [chunkList_nil] at hc
      cases hc
    | succ n ih =>
      intro l hl c hc
      by_cases h : l = []
      · subst h
        rw [chunkList_nil] at hc
        cases hc
      · rw [chunkList_cons l h] at hc
        rcases List.mem_cons.mp hc with hc | hc
        · subst hc
          simp [List.length_take]
        · exact ih (l.drop 65536) (by simp only [List.length_drop]; omega) c hc
  exact H l.length l le_rfl

/-- One streaming iteration that reads a chunk and writes it out. -/
theorem flushLoop_step (f : AttemptFaults) (fuel : Nat) (s : StagingFile)
    (bufLen k : Nat) (chunks : List (List Byte)) (written : Nat)
    (hr : f.readFault k = none) (hlt : s.pos < s.data.length)
    (hw : f.writeFault chunks.length = none) :
    flushLoop f (fuel + 1) s bufLen k chunks written =
      flushLoop f fuel
        { s with pos := s.pos + ((s.data.drop s.pos).take (min bufLen (s.data.length - s.pos))).length }
        ((s.data.drop s.pos).take (min bufLen (s.data.length - s.pos))).length (k + 1)
        (chunks ++ [(s.data.drop s.pos).take (min bufLen (s.data.length - s.pos))])
        (written + ((s.data.drop s.pos).take (min bufLen (s.data.length - s.pos))).length) := by
  conv_lhs => rw [flushLoop]
  rw [hr]
  rw [if_neg (not_le.mpr hlt)]
  rw [hw]

/-- One streaming iteration that hits end-of-file and breaks out. -/
theorem flushLoop_eof (f : AttemptFaults) (fuel : Nat) (s : StagingFile)
    (bufLen k : Nat) (chunks : List (List Byte)) (written : Nat)
    (hr : f.readFault k = none) (hge : s.data.length ≤ s.pos) :
    flushLoop f (fuel + 1) s bufLen k chunks written =
      { outcome := LoopExit.brokeRead GoError.eof, staging := s
        chunks := chunks, written := written } := by
  conv_lhs => rw [flushLoop]
  rw [hr]
  rw [if_pos hge]

/-- A streaming loop whose staging reads and remote writes are all clean,
entered with a 64 KiB buffer, delivers exactly the canonical chunking of the
bytes from the current position onward, ends on end-of-file, and advances the
written counter by their number — whatever the create/seek/close faults of the
surrounding attempt. -/
theorem flushLoop_clean (f : AttemptFaults) (hrf : ∀ j, f.readFault j = none)
    (hwf : ∀ j, f.writeFault j = none) :
    ∀ (fuel : Nat) (s : StagingFile) (k : Nat) (chunks : List (List Byte)) (written : Nat),
      s.pos ≤ s.data.length → s.data.length - s.pos < fuel →
      flushLoop f fuel s 65536 k chunks written =
        { outcome := LoopExit.brokeRead GoError.eof
          staging := { s with pos := s.data.length }
          chunks := chunks ++ chunkList (s.data.drop s.pos)
          written := written + (s.data.length - s.pos) } := by
  intro fuel
  induction fuel with
  | zero =>
    intro s k chunks written hle hlt
    omega
  | succ fuel ih =>
    intro s k chunks written hle hlt
    by_cases hend : s.data.length ≤ s.pos
    · have hpe : s.data.length = s.pos := le_antisymm hend hle
      obtain ⟨d, p, rwv⟩ := s
      simp only at hle hend hpe
      subst hpe
      rw [flushLoop_eof f fuel ⟨d, d.length, rwv⟩ 65536 k chunks written (hrf k) (le_refl _)]
      simp [List.drop_length, chunkList_nil]
    · push_neg at hend
      rw [flushLoop_step f fuel s 65536 k chunks written (hrf k) hend (hwf chunks.length)]
      set bs := (s.data.drop s.pos).take (min 65536 (s.data.length - s.pos)) with hbs
      have hbslen : bs.length = min 65536 (s.data.length - s.pos) := by
        rw [hbs]
        simp only [List.length_take, List.length_drop]
        omega
      by_cases hbig : s.data.length - s.pos ≤ 65536
      · have hmin : min 65536 (s.data.length - s.pos) = s.data.length - s.pos := by omega
        have hlen2 : bs.length = s.data.length - s.pos := by rw [hbslen, hmin]
        have hpos2 : s.pos + bs.length = s.data.length := by omega
        have hne : s.data.drop s.pos ≠ [] := by
          intro h0
          have := congrArg List.length h0
          simp only [List.length_drop, List.length_nil] at this
          omega
        have hchunk : chunkList (s.data.drop s.pos) = [bs] := by
          rw [chunkList_cons _ hne]
          have hdz : (s.data.drop s.pos).drop 65536 = [] := by
            apply List.drop_eq_nil_of_le
            simp only [List.length_drop]
            omega
          rw [hdz, chunkList_nil]
          have h1 : (s.data.drop s.pos).take 65536 = s.data.drop s.pos :=
            List.take_of_length_le (by simp only [List.length_drop]; omega)
          have h2 : bs = s.data.drop s.pos := by
            rw [hbs, hmin]
            exact List.take_of_length_le (by simp only [List.length_drop]; omega)
          rw [h1, h2]
        rcases fuel with _ | fuel2
        · omega
        · rw [flushLoop_eof f fuel2 { s with pos := s.pos + bs.length } bs.length (k + 1)
            (chunks ++ [bs]) (written + bs.length) (hrf (k + 1)) (le_of_eq hpos2.symm)]
          rw [hchunk]
          simp
          omega
      · push_neg at hbig
        have hmin : min 65536 (s.data.length - s.pos) = 65536 := by omega
        have hlen2 : bs.length = 65536 := by rw [hbslen, hmin]
        rw [hlen2]
        rw [ih { s with pos := s.pos + 65536 } (k + 1) (chunks ++ [bs]) (written + 65536)
          (by show s.pos + 65536 ≤ s.data.length; omega)
          (by show s.data.length - (s.pos + 65536) < fuel; omega)]
        have hne : s.data.drop s.pos ≠ [] := by
          intro h0
          have := congrArg List.length h0
          simp only [List.length_drop, List.length_nil] at this
          omega
        have hch : chunkList (s.data.drop s.pos) = bs :: chunkList (s.data.drop (s.pos + 65536)) := by
          rw [chunkList_cons _ hne]
          rw [List.drop_drop]
          rw [hbs, hmin]
        rw [hch]
        simp
        omega

/-- C5 (amended): every flush attempt whose create and seek succeed seeks the
staging file to the start and, whenever the stream is interrupted by neither a
staging read error nor a remote write error, streams the staging bytes as the
canonical sequence of at-most-64-KiB chunks: the accumulated byte count
delivered to the remote writer equals the staging file's size, the remote file
holds exactly the staging bytes, and the attempt returns the result of the
final remote close. -/
theorem flush_attempt_clean (fh : FileHandle) (ino : FileINode) (s : StagingFile)
    (f : AttemptFaults) (dfs : Option (List Byte)) (hst : ino.staging = some s)
    (hcr : f.createErr = none) (hsk : f.seekErr = none)
    (hrf : ∀ j, f.readFault j = none) (hwf : ∀ j, f.writeFault j = none) :
    (FlushAttempt fh ino f dfs).err = f.closeErr ∧
    (FlushAttempt fh ino f dfs).createCalls =
      [{ path := ino.path, mode := ino.mode, overwrite := true }] ∧
    (FlushAttempt fh ino f dfs).soughtToStart = true ∧
    (FlushAttempt fh ino f dfs).chunks = chunkList s.data ∧
    (∀ c ∈ (FlushAttempt fh ino f dfs).chunks, c.length ≤ 65536) ∧
    (FlushAttempt fh ino f dfs).written = s.data.length ∧
    (FlushAttempt fh ino f dfs).dfs = some s.data := by
  have hloop := flushLoop_clean f hrf hwf (s.data.length + 2) { s with pos := 0 } 0 [] 0
    (Nat.zero_le _) (by show s.data.length - 0 < s.data.length + 2; omega)
  rcases hcl : f.closeErr with _ | ce
  · have hFA : FlushAttempt fh ino f dfs =
        { err := none
          ino := { ino with staging := some { s with pos := s.data.length } }
          dfs := some ([] ++ chunkList (s.data.drop 0)).flatten
          createCalls := [{ path := ino.path, mode := ino.mode, overwrite := true }]
          soughtToStart := true
          chunks := [] ++ chunkList (s.data.drop 0)
          written := 0 + (s.data.length - 0) } := by
      unfold FlushAttempt
      rw [hcr, hst, hsk]
      simp only []
      rw [hloop, hcl]
    rw [hFA]
    refine ⟨rfl, rfl, rfl, by simp, ?_, by simp, by simp [chunkList_flatten]⟩
    intro c hc
    simp only [List.drop_zero, List.nil_append] at hc
    exact chunkList_chunk_le s.data c hc
  · have hFA : FlushAttempt fh ino f dfs =
        { err := some ce
          ino := { ino with staging := some { s with pos := s.data.length } }
          dfs := some ([] ++ chunkList (s.data.drop 0)).flatten
          createCalls := [{ path := ino.path, mode := ino.mode, overwrite := true }]
          soughtToStart := true
          chunks := [] ++ chunkList (s.data.drop 0)
          written := 0 + (s.data.length - 0) } := by
      unfold FlushAttempt
      rw [hcr, hst, hsk]
      simp only []
      rw [hloop, hcl]
    rw [hFA]
    refine ⟨rfl, rfl, rfl, by simp, ?_, by simp, by simp [chunkList_flatten]⟩
    intro c hc
    simp only [List.drop_zero, List.nil_append] at hc
    exact chunkList_chunk_le s.data c hc

/-- C5 witness: at a three-byte staging file with a clean stream but a failing
remote close, the attempt issues create(11, 420, overwrite=true), delivers all
three bytes to the remote, and returns the close's error. -/
theorem flush_attempt_clean_witness :
    (FlushAttempt exFhC5 exInoC5 exFaultC5w none).err = some (GoError.remoteErr false 3) ∧
    (FlushAttempt exFhC5 exInoC5 exFaultC5w none).createCalls =
      [{ path := 11, mode := 420, overwrite := true }] ∧
    (FlushAttempt exFhC5 exInoC5 exFaultC5w none).soughtToStart = true ∧
    (FlushAttempt exFhC5 exInoC5 exFaultC5w none).written = 3 ∧
    (FlushAttempt exFhC5 exInoC5 exFaultC5w none).dfs = some [9, 9, 9] := by
  have h := flush_attempt_clean exFhC5 exInoC5 exStC5 exFaultC5w none rfl rfl rfl
    (fun _ => rfl) (fun _ => rfl)
  exact ⟨h.1, h.2.1, h.2.2.1, h.2.2.2.2.2.1, h.2.2.2.2.2.2⟩

/-- Every branch of FlushAttempt issues exactly the one CreateFile call with
overwrite=true at the inode's path and mode, and leaves path and mode of the
inode unchanged. -/
theorem FlushAttempt_frame (fh : FileHandle) (ino : FileINode) (f : AttemptFaults)
    (dfs : Option (List Byte)) :
    (FlushAttempt fh ino f dfs).ino.path = ino.path ∧
    (FlushAttempt fh ino f dfs).ino.mode = ino.mode ∧
    (FlushAttempt fh ino f dfs).createCalls =
      [{ path := ino.path, mode := ino.mode, overwrite := true }] := by
  unfold FlushAttempt
  rcases hc : f.createErr with _ | e
  · rcases hs : ino.staging with _ | s
    · simp [hc, hs]
    · rcases hk : f.seekErr with _ | e2
      · rcases hout : (flushLoop f (s.data.length + 2) { s with pos := 0 } 65536 0 [] 0).outcome
          with e3 | e3
        · rcases hcl : f.closeErr with _ | e4 <;> simp [hc, hs, hk, hout, hcl]
        · simp [hc, hs, hk, hout]
      · simp [hc, hs, hk]
  · simp [hc]

/-- A FlushAttempt against an inode whose staging reference is nil cannot
succeed, and leaves the staging reference nil. -/
theorem FlushAttempt_nil_staging (fh : FileHandle) (ino : FileINode) (f : AttemptFaults)
    (dfs : Option (List Byte)) (hst : ino.staging = none) :
    (FlushAttempt fh ino f dfs).err ≠ none ∧
    (FlushAttempt fh ino f dfs).ino.staging = none := by
  unfold FlushAttempt
  rcases hc : f.createErr with _ | e <;> simp [hc, hst]

/-- Shape of every copyLoop run: the attempts made are appended to the
accumulator; there is at least one and at most retries+1 of them; the returned
error is the last attempt's error unchanged; the connection is closed once
before each retry; every non-final attempt failed with io.EOF; every attempt
issued the full create(path, mode, overwrite=true); and the loop stopped only
on budget exhaustion or on a last error that is not a retriable io.EOF. -/
theorem copyLoop_spec (fh : FileHandle) (faults : Nat → AttemptFaults) :
    ∀ (n k : Nat) (ino : FileINode) (dfs : Option (List Byte))
      (acc : List AttemptResult) (closes : Nat),
      ∃ nw : List AttemptResult,
        (copyLoop fh faults n k ino dfs acc closes).attempts = acc ++ nw ∧
        nw ≠ [] ∧ nw.length ≤ n + 1 ∧
        (copyLoop fh faults n k ino dfs acc closes).err = lastErrOf nw ∧
        (copyLoop fh faults n k ino dfs acc closes).connCloses = closes + (nw.length - 1) ∧
        allButLastEofB nw = true ∧
        (∀ a ∈ nw, a.createCalls = [{ path := ino.path, mode := ino.mode, overwrite := true }]) ∧
        (nw.length = n + 1 ∨ IsSuccessOrNonRetriableError (lastErrOf nw) = true ∨
          lastErrOf nw ≠ some GoError.eof) := by
  intro n
  induction n with
  | zero =>
    intro k ino dfs acc closes
    have hstep : copyLoop fh faults 0 k ino dfs acc closes =
        { err := (FlushAttempt fh ino (faults k) dfs).err
          ino := (FlushAttempt fh ino (faults k) dfs).ino
          dfs := (FlushAttempt fh ino (faults k) dfs).dfs
          attempts := acc ++ [FlushAttempt fh ino (faults k) dfs]
          connCloses := closes } := by
      conv_lhs => rw [copyLoop]
    rw [hstep]
    refine ⟨[FlushAttempt fh ino (faults k) dfs], rfl, by simp, by simp, rfl, by simp,
      by simp [allButLastEofB], ?_, Or.inl rfl⟩
    intro a ha
    rw [List.mem_singleton] at ha
    subst ha
    exact (FlushAttempt_frame fh ino (faults k) dfs).2.2
  | succ n ih =>
    intro k ino dfs acc closes
    by_cases hc : (FlushAttempt fh ino (faults k) dfs).err = some GoError.eof ∧
        IsSuccessOrNonRetriableError (FlushAttempt fh ino (faults k) dfs).err = false
    · have hstep : copyLoop fh faults (n + 1) k ino dfs acc closes =
          copyLoop fh faults n (k + 1) (FlushAttempt fh ino (faults k) dfs).ino
            (FlushAttempt fh ino (faults k) dfs).dfs
            (acc ++ [FlushAttempt fh ino (faults k) dfs]) (closes + 1) := by
        conv_lhs => rw [copyLoop]
        rw [if_pos hc]
      obtain ⟨nw, h1, h2, h3, h4, h5, h6, h7, h8⟩ :=
        ih (k + 1) (FlushAttempt fh ino (faults k) dfs).ino
          (FlushAttempt fh ino (faults k) dfs).dfs
          (acc ++ [FlushAttempt fh ino (faults k) dfs]) (closes + 1)
      refine ⟨FlushAttempt fh ino (faults k) dfs :: nw, ?_, by simp, ?_, ?_, ?_, ?_, ?_, ?_⟩
      · rw [hstep, h1]
        simp
      · simp only [List.length_cons]
        omega
      · rw [hstep, h4]
        cases nw with
        | nil => exact absurd rfl h2
        | cons b t => rfl
      · rw [hstep, h5]
        have hnz : 0 < nw.length := List.length_pos.mpr h2
        simp only [List.length_cons]
        omega
      · cases nw with
        | nil => exact absurd rfl h2
        | cons b t =>
          simp only [allButLastEofB]
          rw [h6]
          simp [hc.1]
      · intro a ha
        rcases List.mem_cons.mp ha with ha | ha
        · subst ha
          exact (FlushAttempt_frame fh ino (faults k) dfs).2.2
        · have h9 := h7 a ha
          rwa [(FlushAttempt_frame fh ino (faults k) dfs).1,
            (FlushAttempt_frame fh ino (faults k) dfs).2.1] at h9
      · rcases h8 with h8 | h8
        · exact Or.inl (by simp [List.length_cons, h8])
        · cases nw with
          | nil => exact absurd rfl h2
          | cons b t => exact Or.inr h8
    · have hstep : copyLoop fh faults (n + 1) k ino dfs acc closes =
          { err := (FlushAttempt fh ino (faults k) dfs).err
            ino := (FlushAttempt fh ino (faults k) dfs).ino
            dfs := (FlushAttempt fh ino (faults k) dfs).dfs
            attempts := acc ++ [FlushAttempt fh ino (faults k) dfs]
            connCloses := closes } := by
        conv_lhs => rw [copyLoop]
        rw [if_neg hc]
      rw [hstep]
      refine ⟨[FlushAttempt fh ino (faults k) dfs], rfl, by simp, by simp, rfl, by simp,
        by simp [allButLastEofB], ?_, ?_⟩
      · intro a ha
        rw [List.mem_singleton] at ha
        subst ha
        exact (FlushAttempt_frame fh ino (faults k) dfs).2.2
      · rw [not_and_or] at hc
        rcases hc with hc | hc
        · exact Or.inr (Or.inr hc)
        · refine Or.inr (Or.inl ?_)
          cases hb : IsSuccessOrNonRetriableError (FlushAttempt fh ino (faults k) dfs).err
          · exact absurd hb hc
          · exact hb

/-- C2 (amended): in copyToDFS with pending writes, only a flush attempt that
fails with io.EOF (the broken-connection signal, classified retriable) is
retried; a retry closes the connection first and re-runs the entire upload as
a fresh FlushAttempt with create(path, mode, overwrite=true); every other
failure, and exhaustion of the retry budget, surfaces the last attempt's
error unchanged to the caller of Flush/Fsync. -/
theorem copy_retries_only_on_eof (fh : FileHandle) (ino : FileINode)
    (faults : Nat → AttemptFaults) (retries : Nat) (dfs : Option (List Byte))
    (hw : fh.totalBytesWritten ≠ 0) :
    (copyToDFS fh ino faults retries dfs).attempts ≠ [] ∧
    (copyToDFS fh ino faults retries dfs).err =
      lastErrOf (copyToDFS fh ino faults retries dfs).attempts ∧
    (copyToDFS fh ino faults retries dfs).connCloses + 1 =
      (copyToDFS fh ino faults retries dfs).attempts.length ∧
    (copyToDFS fh ino faults retries dfs).attempts.length ≤ retries + 1 ∧
    allButLastEofB (copyToDFS fh ino faults retries dfs).attempts = true ∧
    (∀ a ∈ (copyToDFS fh ino faults retries dfs).attempts,
      a.createCalls = [{ path := ino.path, mode := ino.mode, overwrite := true }]) ∧
    ((copyToDFS fh ino faults retries dfs).attempts.length = retries + 1 ∨
      IsSuccessOrNonRetriableError (copyToDFS fh ino faults retries dfs).err = true ∨
      (copyToDFS fh ino faults retries dfs).err ≠ some GoError.eof) := by
  obtain ⟨nw, h1, h2, h3, h4, h5, h6, h7, h8⟩ := copyLoop_spec fh faults retries 0 ino dfs [] 0
  rw [List.nil_append] at h1
  have hcd : copyToDFS fh ino faults retries dfs =
      { err := (copyLoop fh faults retries 0 ino dfs [] 0).err
        ino := { (copyLoop fh faults retries 0 ino dfs [] 0).ino with metaCached := false }
        dfs := (copyLoop fh faults retries 0 ino dfs [] 0).dfs
        attempts := (copyLoop fh faults retries 0 ino dfs [] 0).attempts
        connCloses := (copyLoop fh faults retries 0 ino dfs [] 0).connCloses } := by
    unfold copyToDFS
    rw [if_neg hw]
  rw [hcd]
  have hnz : 0 < nw.length := List.length_pos.mpr h2
  refine ⟨by rw [h1]; exact h2, by rw [h1, h4], by rw [h1, h5]; omega, by rw [h1]; exact h3,
    by rw [h1]; exact h6, by rw [h1]; exact h7, ?_⟩
  rcases h8 with h8 | h8
  · exact Or.inl (by rw [h1, h8])
  · rw [h4, h1]
    exact Or.inr h8

/-- C2 witness: with the first attempt failing at CreateFile with io.EOF and
the second fault-free, copyToDFS makes two attempts, closes the connection
once between them, and returns the second attempt's (nil) error. -/
theorem copy_retries_only_on_eof_witness :
    (copyToDFS exFhC2w exInoC2w exFaultsC2w 2 none).err =
      lastErrOf (copyToDFS exFhC2w exInoC2w exFaultsC2w 2 none).attempts ∧
    (copyToDFS exFhC2w exInoC2w exFaultsC2w 2 none).attempts.length = 2 ∧
    (copyToDFS exFhC2w exInoC2w exFaultsC2w 2 none).connCloses = 1 ∧
    (copyToDFS exFhC2w exInoC2w exFaultsC2w 2 none).err = none := by
  refine ⟨(copy_retries_only_on_eof exFhC2w exInoC2w exFaultsC2w 2 none (by decide)).2.1,
    by decide, by decide, by decide⟩

/-- A copyLoop started against an inode whose staging reference is nil never
returns success: every attempt fails, the staging stays nil across retries,
and the last error is surfaced. -/
theorem copyLoop_nil_staging (fh : FileHandle) (faults : Nat → AttemptFaults) :
    ∀ (n k : Nat) (ino : FileINode) (dfs : Option (List Byte))
      (acc : List AttemptResult) (closes : Nat),
      ino.staging = none → (copyLoop fh faults n k ino dfs acc closes).err ≠ none := by
  intro n
  induction n with
  | zero =>
    intro k ino dfs acc closes hst
    exact (FlushAttempt_nil_staging fh ino (faults k) dfs hst).1
  | succ n ih =>
    intro k ino dfs acc closes hst
    by_cases hc : (FlushAttempt fh ino (faults k) dfs).err = some GoError.eof ∧
        IsSuccessOrNonRetriableError (FlushAttempt fh ino (faults k) dfs).err = false
    · have hstep : copyLoop fh faults (n + 1) k ino dfs acc closes =
          copyLoop fh faults n (k + 1) (FlushAttempt fh ino (faults k) dfs).ino
            (FlushAttempt fh ino (faults k) dfs).dfs
            (acc ++ [FlushAttempt fh ino (faults k) dfs]) (closes + 1) := by
        conv_lhs => rw [copyLoop]
        rw [if_pos hc]
      rw [hstep]
      exact ih (k + 1) _ _ _ _ ((FlushAttempt_nil_staging fh ino (faults k) dfs hst).2)
    · have hstep : (copyLoop fh faults (n + 1) k ino dfs acc closes).err =
          (FlushAttempt fh ino (faults k) dfs).err := by
        conv_lhs => rw [copyLoop]
        rw [if_neg hc]
      rw [hstep]
      exact (FlushAttempt_nil_staging fh ino (faults k) dfs hst).1

/-- When Release leaves the inode with no active handles, the staging
reference has been cleared. -/
theorem release_zero_staging (fh : FileHandle) (ino : FileINode)
    (closeFault : Option GoError)
    (hz : countActiveHandles (Release fh ino closeFault).ino = 0) :
    (Release fh ino closeFault).ino.staging = none := by
  simp only [Release, RemoveHandle, countActiveHandles] at hz ⊢
  by_cases h : (ino.handles.erase fh.fhID).length = 0
  · rw [if_pos h]
  · rw [if_neg h] at hz
    exact absurd hz h

/-- C9 (amended): after Release(H) returns, if the inode is left with no
active handles (the staging reference cleared), no staging-backed operation on
H succeeds: Read, Write and Truncate fail, and Flush with pending written
bytes fails; when other handles remain active, the code does not prevent
operations on the released handle (see the counterexample). -/
theorem released_last_handle_ops_fail (fh : FileHandle) (ino : FileINode)
    (closeFault : Option GoError)
    (hz : countActiveHandles (Release fh ino closeFault).ino = 0) :
    (∀ off size fault, (fhRead fh (Release fh ino closeFault).ino off size fault).err ≠ none) ∧
    (∀ off bs fault, (fhWrite fh (Release fh ino closeFault).ino off bs fault).err ≠ none) ∧
    (∀ size fault, (fhTruncate fh (Release fh ino closeFault).ino size fault).err ≠ none) ∧
    (∀ faults retries dfs, fh.totalBytesWritten ≠ 0 →
      (Flush fh (Release fh ino closeFault).ino faults retries dfs).err ≠ none) := by
  have hnil := release_zero_staging fh ino closeFault hz
  refine ⟨?_, ?_, ?_, ?_⟩
  · intro off size fault
    simp [fhRead, stReadAtF, hnil]
  · intro off bs fault
    simp [fhWrite, upgradeHandleForWriting, hnil]
  · intro size fault
    simp [fhTruncate, hnil]
  · intro faults retries dfs hw
    have hd : dataChanged fh = true := by
      simp [dataChanged, Nat.pos_of_ne_zero hw]
    have h1 : (Flush fh (Release fh ino closeFault).ino faults retries dfs).err =
        (copyLoop fh faults retries 0 (Release fh ino closeFault).ino dfs [] 0).err := by
      unfold Flush
      rw [if_pos hd]
      unfold taggedOut copyToDFS
      rw [if_neg hw]
    rw [h1]
    exact copyLoop_nil_staging fh faults retries 0 _ dfs [] 0 hnil

/-- C9 witness for the amended statement: releasing the only handle clears the
staging reference, after which Read and Truncate on the released handle fail. -/
theorem released_last_handle_ops_fail_witness :
    countActiveHandles (Release exFhC9w exInoC9w none).ino = 0 ∧
    (fhRead exFhC9w (Release exFhC9w exInoC9w none).ino 0 1 none).err ≠ none ∧
    (fhTruncate exFhC9w (Release exFhC9w exInoC9w none).ino 4 none).err ≠ none := by
  have h := released_last_handle_ops_fail exFhC9w exInoC9w none (by decide)
  exact ⟨by decide, h.1 0 1 none, h.2.2.1 4 none⟩

/-- C3 witness: reading 4 bytes of a 1-byte staging file hits end-of-file
underneath, and the VFS result is success. -/
theorem read_eof_is_success_witness :
    (fhRead exFhC3 exInoC3 0 4 none).err = none := by
  rw [(read_eof_is_success exFhC3 exInoC3 0 4 none).1]
  decide

end HopsMount
